import Mathlib

/-!
Shallow embedding of a small recipe-suggestion backend (src/main.py and
src/schemas.py) and proofs about its three handlers: the diagnostics
responder, the image-keyword recipe resolver and the ingredient-overlap
recipe matcher.  Python strings are modelled by Lean strings; `str.strip`
is modelled by `String.trim`, `str.lower` by `String.toLower`, and the
Python substring test `pat in s` by `strContains s pat` below.  Exceptions
raised by the handlers map to `Except.error`; outcomes of calls into the
external persistence layer (`create_document`) and the database probe are
passed in as explicit values, since those collaborators live outside the
repository.
-/

/-- Tests whether the first list is an initial segment of the second. -/
def leadsWith : List Char → List Char → Bool
  | [], _ => true
  | _ :: _, [] => false
  | a :: as, b :: bs => a == b && leadsWith as bs

/-- Tests whether `needle` occurs contiguously inside the second list. -/
def hasSub (needle : List Char) : List Char → Bool
  | [] => leadsWith needle []
  | c :: rest => leadsWith needle (c :: rest) || hasSub needle rest

/-- Model of the Python substring test `pat in hay`. -/
def strContains (hay pat : String) : Bool :=
  hasSub pat.data hay.data

/-- Model of `str.lower` (character-wise lower-casing). -/
def pyLower (s : String) : String :=
  ⟨s.data.map Char.toLower⟩

/-- Model of `str.strip` (drop leading and trailing whitespace). -/
def pyStrip (s : String) : String :=
  ⟨((s.data.dropWhile Char.isWhitespace).reverse.dropWhile
      Char.isWhitespace).reverse⟩

/-- Model of the Python slice `s[:n]` (first `n` characters). -/
def strTake (s : String) (n : Nat) : String :=
  ⟨s.data.take n⟩

deriving instance DecidableEq for Except

/-- Model of the `Recipe` pydantic schema from src/schemas.py. -/
structure Recipe where
  title : String
  ingredients : List String
  steps : List String
  source : Option String := none
  image_filename : Option String := none
deriving Repr, DecidableEq

/-- Response body of the from-image endpoint. -/
structure ImageResponse where
  id : Option String
  title : String
  ingredients : List String
  steps : List String
deriving Repr, DecidableEq

/-- One element of the from-ingredients response body. -/
structure RecipeOut where
  title : String
  ingredients : List String
  steps : List String
deriving Repr, DecidableEq

/-- Projection from a catalog recipe to a response element. -/
def toOut (r : Recipe) : RecipeOut :=
  { title := r.title, ingredients := r.ingredients, steps := r.steps }

/-- Projection dropping the persisted id from an image response. -/
def stripId (r : ImageResponse) : RecipeOut :=
  { title := r.title, ingredients := r.ingredients, steps := r.steps }

/-- Keyword test for the pizza template branch of `recipe_from_image`. -/
def pizzaKey (s : String) : Bool :=
  strContains s "pizza" || strContains s "margherita"

/-- Keyword test for the salad template branch of `recipe_from_image`. -/
def saladKey (s : String) : Bool :=
  strContains s "salad" || strContains s "salat" || strContains s "sałat"

/-- The branch of `recipe_from_image` choosing title, ingredients and
steps from the lower-cased filename. -/
def imageGuess (name_lower : String) : String × List String × List String :=
  if pizzaKey name_lower then
          ("Domowa pizza margherita",
           ["Ciasto do pizzy", "Sos pomidorowy", "Mozzarella",
            "Świeża bazylia", "Oliwa z oliwek", "Sól, pieprz"],
           ["Rozgrzej piekarnik do 250°C.",
            "Rozwałkuj ciasto, posmaruj sosem.",
            "Dodaj plastry mozzarelli i listki bazylii.",
            "Skrop oliwą i dopraw.",
            "Piec 8–12 minut do zrumienienia."])
        else if saladKey name_lower then
          ("Kolorowa sałatka warzywna",
           ["Miks sałat", "Pomidor", "Ogórek", "Czerwona cebula",
            "Oliwa, sok z cytryny", "Sól, pieprz"],
           ["Warzywa pokrój w kostkę.",
            "Wymieszaj z miksem sałat.",
            "Skrop oliwą i sokiem z cytryny, dopraw do smaku."])
        else
          ("Prosty przepis na rozpoznane danie",
           ["Podstawowe warzywa (np. cebula, czosnek)",
            "Główny składnik (np. kurczak/warzywa/makaron)",
            "Przyprawy (sól, pieprz, papryka)",
            "Tłuszcz do smażenia",
            "Dodatek (np. ryż/makaron/pieczywo)"],
           ["Przygotuj składniki: pokrój warzywa i główny składnik.",
            "Podsmaż na rozgrzanym tłuszczu, dopraw do smaku.",
            "Duś lub piecz do miękkości.",
            "Podawaj z wybranym dodatkiem."])

/-- Model of the POST /api/recipes/from-image handler.  `filename` is
`none` when the upload carries no filename; `content` is the uploaded
byte content, read and discarded by the handler; `persist` is the outcome
of the `create_document` call (`some id` on success, `none` when the call
raised and the handler swallowed the exception, assigning `doc_id = None`). -/
def recipe_from_image (filename : Option String) (content : List Nat)
    (persist : Option String) : Except String ImageResponse :=
  match filename with
  | none => Except.error "No file uploaded"
  | some fn =>
    if fn = "" then Except.error "No file uploaded"
    else
      let _ := content
      let name_lower := pyLower fn
      let tis := imageGuess name_lower
      let recipe : Recipe :=
        { title := tis.1, ingredients := tis.2.1, steps := tis.2.2,
          source := some "image", image_filename := some fn }
      Except.ok
        { id := persist, title := recipe.title,
          ingredients := recipe.ingredients, steps := recipe.steps }

/-- Normalization of the user ingredient list:
`[i.strip().lower() for i in ingredients if i.strip()]`. -/
def normalizeIngredients (ingredients : List String) : List String :=
  (ingredients.filter (fun i => !(pyStrip i).data.isEmpty)).map
    (fun i => pyLower (pyStrip i))

/-- Pointwise lower-casing of a catalog ingredient list. -/
def lowerAll (l : List String) : List String :=
  l.map pyLower

/-- Size of the set intersection `len(set(user) and set(rIngs))`: the
number of distinct members of `user` that also occur in `rIngs`. -/
def overlapCount (user rIngs : List String) : Nat :=
  (user.dedup.filter (fun i => decide (i ∈ rIngs))).length

/-- Overlap score of one catalog recipe against the normalized input. -/
def scoreOf (user : List String) (r : Recipe) : Nat :=
  overlapCount user (lowerAll r.ingredients)

/-- Overlap score read back from a response element. -/
def scoreOut (user : List String) (o : RecipeOut) : Nat :=
  overlapCount user (lowerAll o.ingredients)

/-- The catalog pairing built by the matcher: each recipe with its score. -/
def scoredList (cat : List Recipe) (user : List String) : List (Nat × Recipe) :=
  cat.map (fun r => (scoreOf user r, r))

/-- Stable insertion into a list sorted descending by score: the new
element lands in front of the first element whose score is not larger. -/
def insertDesc (x : Nat × Recipe) : List (Nat × Recipe) → List (Nat × Recipe)
  | [] => [x]
  | y :: ys => if y.1 ≤ x.1 then x :: y :: ys else y :: insertDesc x ys

/-- Stable sort, descending by score: the model of
`scored.sort(key=lambda x: x[0], reverse=True)` (Python sorts stably). -/
def sortDesc : List (Nat × Recipe) → List (Nat × Recipe)
  | [] => []
  | x :: xs => insertDesc x (sortDesc xs)

/-- The threshold filter of the matcher:
`(len(user_ings) == 1 and score >= 1) or (len(user_ings) > 1 and score >= 2)`. -/
def keeps (n score : Nat) : Bool :=
  decide ((n = 1 ∧ 1 ≤ score) ∨ (1 < n ∧ 2 ≤ score))

/-- Scoring, sorting, threshold filtering and fallback of the matcher,
over an explicit catalog. -/
def selectFrom (cat : List Recipe) (user : List String) : List Recipe :=
  let sorted := sortDesc (scoredList cat user)
  let results := (sorted.filter (fun p => keeps user.length p.1)).map Prod.snd
  if results.isEmpty then
    match sorted with
    | [] => []
    | p :: _ => [p.2]
  else results

/-- First catalog seed from `recipes_from_ingredients`. -/
def spaghettiAglio : Recipe :=
  { title := "Spaghetti aglio e olio"
    ingredients := ["makaron", "czosnek", "oliwa z oliwek", "pietruszka",
                    "papryczka chili", "sól"]
    steps := ["Ugotuj makaron al dente.",
              "Na oliwie podsmaż czosnek i chili.",
              "Wymieszaj z makaronem i posiekaną pietruszką, dopraw."]
    source := some "seed" }

/-- Second catalog seed from `recipes_from_ingredients`. -/
def salatkaGrecka : Recipe :=
  { title := "Sałatka grecka"
    ingredients := ["pomidor", "ogórek", "cebula czerwona", "ser feta",
                    "oliwki", "oliwa", "oregano", "sól"]
    steps := ["Warzywa pokrój w kostkę.",
              "Dodaj fetę i oliwki, skrop oliwą, posyp oregano.",
              "Dopraw solą i delikatnie wymieszaj."]
    source := some "seed" }

/-- Third catalog seed from `recipes_from_ingredients`. -/
def kurczakCurry : Recipe :=
  { title := "Kurczak curry"
    ingredients := ["kurczak", "cebula", "czosnek", "imbir", "pasta curry",
                    "mleczko kokosowe", "ryż", "sól"]
    steps := ["Podsmaż cebulę, czosnek i imbir.",
              "Dodaj kurczaka i pastę curry, smaż chwilę.",
              "Wlej mleczko kokosowe i duś do miękkości. Podawaj z ryżem."]
    source := some "seed" }

/-- The fixed three-entry catalog seeded inside the handler. -/
def catalog : List Recipe :=
  [spaghettiAglio, salatkaGrecka, kurczakCurry]

/-- Model of the POST /api/recipes/from-ingredients handler over an
explicit catalog. -/
def recipes_from_ingredients_cat (cat : List Recipe)
    (ingredients : List String) : Except String (List RecipeOut) :=
  let user_ings := normalizeIngredients ingredients
  if user_ings.isEmpty then
    Except.error "Podaj co najmniej jeden składnik"
  else
    Except.ok ((selectFrom cat user_ings).map toOut)

/-- Model of the POST /api/recipes/from-ingredients handler.  `persistOk`
is the outcome of the best-effort `create_document` call for the query
log; the except-pass in the source swallows it, so it is unused. -/
def recipes_from_ingredients (ingredients : List String)
    (persistOk : Bool) : Except String (List RecipeOut) :=
  let _ := persistOk
  recipes_from_ingredients_cat catalog ingredients

/-- The query log record the matcher hands to `create_document`.  The
source dict has keys `ingredients` and `matches`; the latter is spelled
`matched` here because `matches` is reserved in Lean. -/
structure QueryLog where
  ingredients : List String
  matched : List String
deriving Repr, DecidableEq

/-- The log write attempted by the matcher: nothing on the error path,
otherwise the normalized input together with the matched titles. -/
def query_log (ingredients : List String) : Option QueryLog :=
  let user_ings := normalizeIngredients ingredients
  if user_ings.isEmpty then none
  else
    some { ingredients := user_ings
           matched := (selectFrom catalog user_ings).map Recipe.title }

/-- Outcome of the database probe performed by the GET /test handler:
either the very access to the client raised, or the client is `None`, or
it is ready, carrying the optional `name` attribute and the result of
`list_collection_names` (an exception message on failure). -/
inductive DbProbe where
  | outerError (msg : String)
  | notInitialized
  | ready (nameAttr : Option String) (listing : Except String (List String))
deriving Repr

/-- Response body of the GET /test handler. -/
structure TestResponse where
  backend : String
  database : String
  database_url : Option String
  database_name : Option String
  connection_status : String
  collections : List String
deriving Repr, DecidableEq

/-- Model of the GET /test handler.  `urlSet` and `nameSet` say whether
the two environment variables are set. -/
def test_database (probe : DbProbe) (urlSet nameSet : Bool) : TestResponse :=
  let r0 : TestResponse :=
    { backend := "✅ Running"
      database := "❌ Not Available"
      database_url := none
      database_name := none
      connection_status := "Not Connected"
      collections := [] }
  let r1 :=
    match probe with
    | DbProbe.outerError e =>
        { r0 with database := "❌ Error: " ++ strTake e 50 }
    | DbProbe.notInitialized =>
        { r0 with database := "⚠️  Available but not initialized" }
    | DbProbe.ready nameAttr listing =>
        let r2 :=
          { r0 with
            database := "✅ Available"
            database_url := some "✅ Configured"
            database_name :=
              some (match nameAttr with
                    | some n => n
                    | none => "✅ Connected")
            connection_status := "Connected" }
        match listing with
        | Except.ok collections =>
            { r2 with collections := collections.take 10
                      database := "✅ Connected & Working" }
        | Except.error e =>
            { r2 with database := "⚠️  Connected but Error: " ++ strTake e 50 }
  { r1 with
    database_url := some (if urlSet then "✅ Set" else "❌ Not Set")
    database_name := some (if nameSet then "✅ Set" else "❌ Not Set") }

/-! Generic lemmas about the stable descending sort and the selection. -/

theorem mem_insertDesc {x p : Nat × Recipe} {l : List (Nat × Recipe)} :
    p ∈ insertDesc x l ↔ p = x ∨ p ∈ l := by
  induction l with
  | nil => simp [insertDesc]
  | cons y ys ih =>
    by_cases hxy : y.1 ≤ x.1
    · simp only [insertDesc, if_pos hxy, List.mem_cons]
    · simp only [insertDesc, if_neg hxy, List.mem_cons, ih]
      tauto

theorem insertDesc_perm (x : Nat × Recipe) (l : List (Nat × Recipe)) :
    (insertDesc x l).Perm (x :: l) := by
  induction l with
  | nil => exact List.Perm.refl _
  | cons y ys ih =>
    by_cases hxy : y.1 ≤ x.1
    · simp only [insertDesc, if_pos hxy]
      exact List.Perm.refl _
    · simp only [insertDesc, if_neg hxy]
      exact (List.Perm.cons y ih).trans (List.Perm.swap x y ys)

theorem sortDesc_perm (l : List (Nat × Recipe)) : (sortDesc l).Perm l := by
  induction l with
  | nil => exact List.Perm.refl _
  | cons x xs ih =>
    exact (insertDesc_perm x (sortDesc xs)).trans (List.Perm.cons x ih)

theorem pairwise_insertDesc {x : Nat × Recipe} {l : List (Nat × Recipe)}
    (h : l.Pairwise (fun a b => b.1 ≤ a.1)) :
    (insertDesc x l).Pairwise (fun a b => b.1 ≤ a.1) := by
  induction l with
  | nil => simp [insertDesc]
  | cons y ys ih =>
    rcases List.pairwise_cons.mp h with ⟨hy, hys⟩
    by_cases hxy : y.1 ≤ x.1
    · simp only [insertDesc, if_pos hxy]
      refine List.pairwise_cons.mpr ⟨?_, h⟩
      intro b hb
      rcases List.mem_cons.mp hb with rfl | hb
      · exact hxy
      · exact le_trans (hy b hb) hxy
    · simp only [insertDesc, if_neg hxy]
      refine List.pairwise_cons.mpr ⟨?_, ih hys⟩
      intro b hb
      rcases mem_insertDesc.mp hb with rfl | hb
      · exact le_of_lt (lt_of_not_le hxy)
      · exact hy b hb

theorem sortDesc_pairwise (l : List (Nat × Recipe)) :
    (sortDesc l).Pairwise (fun a b => b.1 ≤ a.1) := by
  induction l with
  | nil => simp [sortDesc]
  | cons x xs ih => exact pairwise_insertDesc ih

theorem scoredList_map_snd (cat : List Recipe) (u : List String) :
    (scoredList cat u).map Prod.snd = cat := by
  induction cat with
  | nil => rfl
  | cons r rs ih =>
    simp only [scoredList, List.map_cons] at ih ⊢
    rw [ih]

theorem mem_scoredList {p : Nat × Recipe} {cat : List Recipe} {u : List String} :
    p ∈ scoredList cat u ↔ ∃ r ∈ cat, p = (scoreOf u r, r) := by
  simp [scoredList, eq_comm]

theorem score_eq_of_mem_scored {p : Nat × Recipe} {cat : List Recipe}
    {u : List String} (h : p ∈ scoredList cat u) : p.1 = scoreOf u p.2 := by
  rcases mem_scoredList.mp h with ⟨r, _, rfl⟩
  rfl

theorem snd_mem_of_mem_scored {p : Nat × Recipe} {cat : List Recipe}
    {u : List String} (h : p ∈ scoredList cat u) : p.2 ∈ cat := by
  rcases mem_scoredList.mp h with ⟨r, hr, rfl⟩
  exact hr

theorem selectFrom_eq_results {cat : List Recipe} {u : List String}
    (h : ((sortDesc (scoredList cat u)).filter
        (fun p => keeps u.length p.1)).map Prod.snd ≠ []) :
    selectFrom cat u = ((sortDesc (scoredList cat u)).filter
        (fun p => keeps u.length p.1)).map Prod.snd := by
  simp only [selectFrom]
  rw [if_neg]
  simp [List.isEmpty_iff, h]

theorem selectFrom_eq_fallback {cat : List Recipe} {u : List String}
    {p : Nat × Recipe} {rest : List (Nat × Recipe)}
    (h : ((sortDesc (scoredList cat u)).filter
        (fun q => keeps u.length q.1)).map Prod.snd = [])
    (hS : sortDesc (scoredList cat u) = p :: rest) :
    selectFrom cat u = [p.2] := by
  simp only [selectFrom]
  rw [hS] at h ⊢
  rw [if_pos]
  simp [List.isEmpty_iff, h]

theorem selectFrom_eq_nil {cat : List Recipe} {u : List String}
    (hS : sortDesc (scoredList cat u) = []) : selectFrom cat u = [] := by
  simp [selectFrom, hS]

theorem sortDesc_scored_ne_nil {cat : List Recipe} {u : List String}
    (h : cat ≠ []) : sortDesc (scoredList cat u) ≠ [] := by
  intro hS
  have hlen := (sortDesc_perm (scoredList cat u)).length_eq
  rw [hS] at hlen
  have hsc : (scoredList cat u).length = cat.length := by simp [scoredList]
  rw [hsc] at hlen
  exact h (List.length_eq_zero.mp hlen.symm)

theorem selectFrom_subset {cat : List Recipe} {u : List String} {r : Recipe}
    (h : r ∈ selectFrom cat u) : r ∈ cat := by
  by_cases hres : ((sortDesc (scoredList cat u)).filter
      (fun p => keeps u.length p.1)).map Prod.snd = []
  · rcases hS : sortDesc (scoredList cat u) with _ | ⟨p, rest⟩
    · rw [selectFrom_eq_nil hS] at h
      simp at h
    · rw [selectFrom_eq_fallback hres hS] at h
      have hr : r = p.2 := List.mem_singleton.mp h
      have hp : p ∈ scoredList cat u :=
        (sortDesc_perm _).mem_iff.mp (by rw [hS]; exact List.mem_cons_self p rest)
      rw [hr]
      exact snd_mem_of_mem_scored hp
  · rw [selectFrom_eq_results hres] at h
    rcases List.mem_map.mp h with ⟨p, hp, rfl⟩
    have hp2 := List.mem_filter.mp hp
    exact snd_mem_of_mem_scored ((sortDesc_perm (scoredList cat u)).mem_iff.mp hp2.1)

theorem selectFrom_mem_of_keeps {cat : List Recipe} {u : List String}
    {r : Recipe} (hr : r ∈ cat)
    (hk : keeps u.length (scoreOf u r) = true) : r ∈ selectFrom cat u := by
  have hmem : (scoreOf u r, r) ∈ scoredList cat u := mem_scoredList.mpr ⟨r, hr, rfl⟩
  have hms : (scoreOf u r, r) ∈ sortDesc (scoredList cat u) :=
    (sortDesc_perm _).mem_iff.mpr hmem
  have hf : (scoreOf u r, r) ∈ (sortDesc (scoredList cat u)).filter
      (fun p => keeps u.length p.1) :=
    List.mem_filter.mpr ⟨hms, hk⟩
  have hmm : r ∈ ((sortDesc (scoredList cat u)).filter
      (fun p => keeps u.length p.1)).map Prod.snd :=
    List.mem_map.mpr ⟨_, hf, rfl⟩
  rw [selectFrom_eq_results (List.ne_nil_of_mem hmm)]
  exact hmm

theorem selectFrom_ne_nil {cat : List Recipe} {u : List String}
    (h : cat ≠ []) : selectFrom cat u ≠ [] := by
  rcases hS : sortDesc (scoredList cat u) with _ | ⟨p, rest⟩
  · exact absurd hS (sortDesc_scored_ne_nil h)
  · by_cases hres : ((sortDesc (scoredList cat u)).filter
        (fun q => keeps u.length q.1)).map Prod.snd = []
    · rw [selectFrom_eq_fallback hres hS]
      simp
    · rw [selectFrom_eq_results hres]
      exact hres

theorem selectFrom_sorted (cat : List Recipe) (u : List String) :
    (selectFrom cat u).Pairwise (fun a b => scoreOf u b ≤ scoreOf u a) := by
  by_cases hres : ((sortDesc (scoredList cat u)).filter
      (fun p => keeps u.length p.1)).map Prod.snd = []
  · rcases hS : sortDesc (scoredList cat u) with _ | ⟨p, rest⟩
    · rw [selectFrom_eq_nil hS]
      simp
    · rw [selectFrom_eq_fallback hres hS]
      simp
  · rw [selectFrom_eq_results hres, List.pairwise_map]
    have hpw2 : (sortDesc (scoredList cat u)).Pairwise
        (fun a b => scoreOf u b.2 ≤ scoreOf u a.2) := by
      refine List.Pairwise.imp_of_mem ?_ (sortDesc_pairwise (scoredList cat u))
      intro a b ha hb hab
      rw [← score_eq_of_mem_scored ((sortDesc_perm _).mem_iff.mp ha),
          ← score_eq_of_mem_scored ((sortDesc_perm _).mem_iff.mp hb)]
      exact hab
    exact hpw2.sublist (List.filter_sublist _)

theorem selectFrom_fallback {cat : List Recipe} {u : List String}
    (hall : ∀ r ∈ cat, keeps u.length (scoreOf u r) = false) (hne : cat ≠ []) :
    ∃ r ∈ cat, selectFrom cat u = [r] ∧
      ∀ r2 ∈ cat, scoreOf u r2 ≤ scoreOf u r := by
  have hfil : (sortDesc (scoredList cat u)).filter
      (fun p => keeps u.length p.1) = [] := by
    rw [List.filter_eq_nil_iff]
    intro p hp
    rcases mem_scoredList.mp ((sortDesc_perm _).mem_iff.mp hp) with ⟨r, hr, rfl⟩
    simp [hall r hr]
  have hres : ((sortDesc (scoredList cat u)).filter
      (fun p => keeps u.length p.1)).map Prod.snd = [] := by
    rw [hfil]
    rfl
  rcases hS : sortDesc (scoredList cat u) with _ | ⟨p, rest⟩
  · exact absurd hS (sortDesc_scored_ne_nil hne)
  · have hpmem : p ∈ scoredList cat u :=
      (sortDesc_perm _).mem_iff.mp (by rw [hS]; exact List.mem_cons_self p rest)
    refine ⟨p.2, snd_mem_of_mem_scored hpmem,
      selectFrom_eq_fallback hres hS, ?_⟩
    intro r2 hr2
    have h2 : (scoreOf u r2, r2) ∈ sortDesc (scoredList cat u) :=
      (sortDesc_perm _).mem_iff.mpr (mem_scoredList.mpr ⟨r2, hr2, rfl⟩)
    rw [hS] at h2
    rcases List.mem_cons.mp h2 with heq | hmem2
    · rw [← heq]
    · have hpw := sortDesc_pairwise (scoredList cat u)
      rw [hS] at hpw
      have hple := (List.pairwise_cons.mp hpw).1 _ hmem2
      calc scoreOf u r2 ≤ p.1 := hple
        _ = scoreOf u p.2 := score_eq_of_mem_scored hpmem

theorem selectFrom_nodup {cat : List Recipe} {u : List String}
    (h : cat.Nodup) : (selectFrom cat u).Nodup := by
  by_cases hres : ((sortDesc (scoredList cat u)).filter
      (fun p => keeps u.length p.1)).map Prod.snd = []
  · rcases hS : sortDesc (scoredList cat u) with _ | ⟨p, rest⟩
    · rw [selectFrom_eq_nil hS]
      simp
    · rw [selectFrom_eq_fallback hres hS]
      simp
  · rw [selectFrom_eq_results hres]
    have h1 : List.Sublist
        (((sortDesc (scoredList cat u)).filter
          (fun p => keeps u.length p.1)).map Prod.snd)
        ((sortDesc (scoredList cat u)).map Prod.snd) :=
      (List.filter_sublist _).map Prod.snd
    have h2 : ((sortDesc (scoredList cat u)).map Prod.snd).Perm cat := by
      have hm := (sortDesc_perm (scoredList cat u)).map Prod.snd
      rw [scoredList_map_snd] at hm
      exact hm
    exact List.Nodup.sublist h1 (h2.nodup_iff.mpr h)

theorem selectFrom_length_le {cat : List Recipe} {u : List String} :
    (selectFrom cat u).length ≤ cat.length := by
  by_cases hres : ((sortDesc (scoredList cat u)).filter
      (fun p => keeps u.length p.1)).map Prod.snd = []
  · rcases hS : sortDesc (scoredList cat u) with _ | ⟨p, rest⟩
    · rw [selectFrom_eq_nil hS]
      simp
    · rw [selectFrom_eq_fallback hres hS]
      have hlen := (sortDesc_perm (scoredList cat u)).length_eq
      rw [hS] at hlen
      have hsc : (scoredList cat u).length = cat.length := by simp [scoredList]
      rw [hsc] at hlen
      simp only [List.length_cons] at hlen
      simp only [List.length_singleton]
      omega
  · rw [selectFrom_eq_results hres]
    have hlen := (sortDesc_perm (scoredList cat u)).length_eq
    have hsc : (scoredList cat u).length = cat.length := by simp [scoredList]
    calc (((sortDesc (scoredList cat u)).filter
          (fun p => keeps u.length p.1)).map Prod.snd).length
        = ((sortDesc (scoredList cat u)).filter
          (fun p => keeps u.length p.1)).length := List.length_map _ _
      _ ≤ (sortDesc (scoredList cat u)).length := List.length_filter_le _ _
      _ = cat.length := by rw [hlen, hsc]

/-- Claim C7: for every outcome of the datastore probe and of the
environment checks, the diagnostics handler evaluates to a status
response (all internal exceptions are absorbed into the status strings,
never propagated), its backend flag always reads running, and the
collections field never holds more than 10 names. -/
theorem C7_diagnostics_total (probe : DbProbe) (urlSet nameSet : Bool) :
    (test_database probe urlSet nameSet).collections.length ≤ 10 ∧
    (test_database probe urlSet nameSet).backend = "✅ Running" := by
  rcases probe with e | _ | ⟨nameAttr, listing⟩
  · simp [test_database]
  · simp [test_database]
  · rcases listing with e | cols
    · simp [test_database]
    · refine ⟨?_, rfl⟩
      show (cols.take 10).length ≤ 10
      exact List.length_take_le _ _

/-- Claim C5: the from-image resolver fails with the client error message
exactly when the filename is absent or empty, and succeeds on every
non-empty filename. -/
theorem C5_image_error_iff (filename : Option String) (content : List Nat)
    (persist : Option String) :
    ((filename = none ∨ filename = some "") →
      recipe_from_image filename content persist =
        Except.error "No file uploaded") ∧
    ((filename ≠ none ∧ filename ≠ some "") →
      ∃ r, recipe_from_image filename content persist = Except.ok r) := by
  constructor
  · rintro (rfl | rfl)
    · rfl
    · rfl
  · rintro ⟨h1, h2⟩
    rcases filename with _ | fn
    · exact absurd rfl h1
    · have hfn : fn ≠ "" := by
        intro h
        exact h2 (by rw [h])
      refine ⟨{ id := persist, title := (imageGuess (pyLower fn)).1,
                ingredients := (imageGuess (pyLower fn)).2.1,
                steps := (imageGuess (pyLower fn)).2.2 }, ?_⟩
      simp only [recipe_from_image, if_neg hfn]

/-- Witness for C5: an absent filename yields the client error while a
concrete non-empty filename succeeds. -/
theorem C5_image_error_iff_witness :
    recipe_from_image none [] none = Except.error "No file uploaded" ∧
    ∃ r, recipe_from_image (some "salad.png") [7] none = Except.ok r :=
  ⟨(C5_image_error_iff none [] none).1 (Or.inl rfl),
   (C5_image_error_iff (some "salad.png") [7] none).2 ⟨by decide, by decide⟩⟩

/-- Claim C4: the from-ingredients matcher fails with the client error
exactly when the normalized ingredient list is empty; on the error path
no recipes are returned and no query log record is written, on the
success path a response and a log write both exist. -/
theorem C4_matcher_error_iff (ings : List String) (persistOk : Bool) :
    (normalizeIngredients ings = [] →
      recipes_from_ingredients ings persistOk =
        Except.error "Podaj co najmniej jeden składnik" ∧
      query_log ings = none) ∧
    (normalizeIngredients ings ≠ [] →
      (∃ out, recipes_from_ingredients ings persistOk = Except.ok out) ∧
      query_log ings ≠ none) := by
  constructor
  · intro h
    constructor
    · simp [recipes_from_ingredients, recipes_from_ingredients_cat, h]
    · simp [query_log, h]
  · intro h
    constructor
    · exact ⟨(selectFrom catalog (normalizeIngredients ings)).map toOut, by
        simp [recipes_from_ingredients, recipes_from_ingredients_cat,
          List.isEmpty_iff, h]⟩
    · simp [query_log, List.isEmpty_iff, h]

/-- Witness for C4: an input of blank strings normalizes to nothing and
produces the client error with no log write; a real ingredient succeeds. -/
theorem C4_matcher_error_iff_witness :
    (normalizeIngredients ["", "   "] = [] ∧
      recipes_from_ingredients ["", "   "] true =
        Except.error "Podaj co najmniej jeden składnik" ∧
      query_log ["", "   "] = none) ∧
    (normalizeIngredients ["makaron"] ≠ [] ∧
      (∃ out, recipes_from_ingredients ["makaron"] true = Except.ok out) ∧
      query_log ["makaron"] ≠ none) :=
  ⟨⟨by decide, (C4_matcher_error_iff ["", "   "] true).1 (by decide)⟩,
   ⟨by decide, (C4_matcher_error_iff ["makaron"] true).2 (by decide)⟩⟩

/-- Claim C6: a persistence failure is fully swallowed.  The from-image
response differs from the success case only by a null id, and the
from-ingredients response is independent of the persistence outcome. -/
theorem C6_persistence_swallowed (filename : Option String)
    (content : List Nat) (docId : String) (ings : List String)
    (b1 b2 : Bool) :
    recipe_from_image filename content none =
      (recipe_from_image filename content (some docId)).map
        (fun r => { r with id := none }) ∧
    recipes_from_ingredients ings b1 = recipes_from_ingredients ings b2 := by
  refine ⟨?_, rfl⟩
  rcases filename with _ | fn
  · rfl
  · by_cases hfn : fn = ""
    · subst hfn
      rfl
    · simp only [recipe_from_image, if_neg hfn, Except.map]

/-- Claim C8: the recipe content resolved from an image is a function of
the filename alone; the byte content and the persistence outcome can only
influence the id, never the title, ingredients or steps. -/
theorem C8_image_content_oblivious (filename : Option String)
    (c1 c2 : List Nat) (p1 p2 : Option String) :
    (recipe_from_image filename c1 p1).map stripId =
      (recipe_from_image filename c2 p2).map stripId := by
  rcases filename with _ | fn
  · rfl
  · by_cases hfn : fn = ""
    · subst hfn
      rfl
    · simp only [recipe_from_image, if_neg hfn, Except.map]
      rfl

/-- Claim C3: for every non-empty filename the resolver lower-cases it
and tests the three keyword sets in priority order: pizza keywords give
the fixed pizza template verbatim (6 ingredients, 5 steps), otherwise
salad keywords give the fixed salad template, otherwise the fixed generic
fallback template is returned. -/
theorem C3_image_keyword_priority (fn : String) (content : List Nat)
    (persist : Option String) (h : fn ≠ "") :
    (pizzaKey (pyLower fn) = true →
      recipe_from_image (some fn) content persist = Except.ok
        { id := persist, title := "Domowa pizza margherita",
          ingredients := ["Ciasto do pizzy", "Sos pomidorowy", "Mozzarella",
            "Świeża bazylia", "Oliwa z oliwek", "Sól, pieprz"],
          steps := ["Rozgrzej piekarnik do 250°C.",
            "Rozwałkuj ciasto, posmaruj sosem.",
            "Dodaj plastry mozzarelli i listki bazylii.",
            "Skrop oliwą i dopraw.",
            "Piec 8–12 minut do zrumienienia."] } ∧
      (["Ciasto do pizzy", "Sos pomidorowy", "Mozzarella", "Świeża bazylia",
         "Oliwa z oliwek", "Sól, pieprz"] : List String).length = 6 ∧
      (["Rozgrzej piekarnik do 250°C.", "Rozwałkuj ciasto, posmaruj sosem.",
         "Dodaj plastry mozzarelli i listki bazylii.", "Skrop oliwą i dopraw.",
         "Piec 8–12 minut do zrumienienia."] : List String).length = 5) ∧
    (pizzaKey (pyLower fn) = false → saladKey (pyLower fn) = true →
      recipe_from_image (some fn) content persist = Except.ok
        { id := persist, title := "Kolorowa sałatka warzywna",
          ingredients := ["Miks sałat", "Pomidor", "Ogórek", "Czerwona cebula",
            "Oliwa, sok z cytryny", "Sól, pieprz"],
          steps := ["Warzywa pokrój w kostkę.",
            "Wymieszaj z miksem sałat.",
            "Skrop oliwą i sokiem z cytryny, dopraw do smaku."] }) ∧
    (pizzaKey (pyLower fn) = false → saladKey (pyLower fn) = false →
      recipe_from_image (some fn) content persist = Except.ok
        { id := persist, title := "Prosty przepis na rozpoznane danie",
          ingredients := ["Podstawowe warzywa (np. cebula, czosnek)",
            "Główny składnik (np. kurczak/warzywa/makaron)",
            "Przyprawy (sól, pieprz, papryka)",
            "Tłuszcz do smażenia",
            "Dodatek (np. ryż/makaron/pieczywo)"],
          steps := ["Przygotuj składniki: pokrój warzywa i główny składnik.",
            "Podsmaż na rozgrzanym tłuszczu, dopraw do smaku.",
            "Duś lub piecz do miękkości.",
            "Podawaj z wybranym dodatkiem."] }) := by
  refine ⟨?_, ?_, ?_⟩
  · intro hp
    refine ⟨?_, rfl, rfl⟩
    simp [recipe_from_image, imageGuess, h, hp]
  · intro hp hs
    simp [recipe_from_image, imageGuess, h, hp, hs]
  · intro hp hs
    simp [recipe_from_image, imageGuess, h, hp, hs]

/-- Witness for C3: a concrete pizza filename takes the pizza branch. -/
theorem C3_image_keyword_priority_witness :
    ("Pizza.jpg" ≠ "" ∧ pizzaKey (pyLower "Pizza.jpg") = true) ∧
    (recipe_from_image (some "Pizza.jpg") [] none = Except.ok
      { id := none, title := "Domowa pizza margherita",
        ingredients := ["Ciasto do pizzy", "Sos pomidorowy", "Mozzarella",
          "Świeża bazylia", "Oliwa z oliwek", "Sól, pieprz"],
        steps := ["Rozgrzej piekarnik do 250°C.",
          "Rozwałkuj ciasto, posmaruj sosem.",
          "Dodaj plastry mozzarelli i listki bazylii.",
          "Skrop oliwą i dopraw.",
          "Piec 8–12 minut do zrumienienia."] } ∧
      (["Ciasto do pizzy", "Sos pomidorowy", "Mozzarella", "Świeża bazylia",
         "Oliwa z oliwek", "Sól, pieprz"] : List String).length = 6 ∧
      (["Rozgrzej piekarnik do 250°C.", "Rozwałkuj ciasto, posmaruj sosem.",
         "Dodaj plastry mozzarelli i listki bazylii.", "Skrop oliwą i dopraw.",
         "Piec 8–12 minut do zrumienienia."] : List String).length = 5) :=
  ⟨⟨by decide, by decide⟩,
   (C3_image_keyword_priority "Pizza.jpg" [] none (by decide)).1 (by decide)⟩

/-- Claim C10: every element of a successful from-ingredients response is
one of the three catalog records echoed verbatim (original casing; the
lower-casing is used for comparison only), no record repeats, and the
response holds between 1 and 3 entries. -/
theorem C10_response_catalog_invariant (ings : List String) (b : Bool)
    (out : List RecipeOut)
    (h : recipes_from_ingredients ings b = Except.ok out) :
    (∀ o ∈ out, ∃ r ∈ catalog, o = toOut r) ∧ out.Nodup ∧
      1 ≤ out.length ∧ out.length ≤ 3 := by
  by_cases hemp : (normalizeIngredients ings).isEmpty = true
  · simp [recipes_from_ingredients, recipes_from_ingredients_cat, hemp] at h
  · rw [Bool.not_eq_true] at hemp
    simp only [recipes_from_ingredients, recipes_from_ingredients_cat, hemp,
      Bool.false_eq_true, if_false, Except.ok.injEq] at h
    subst h
    refine ⟨?_, ?_, ?_, ?_⟩
    · intro o ho
      rcases List.mem_map.mp ho with ⟨r, hr, rfl⟩
      exact ⟨r, selectFrom_subset hr, rfl⟩
    · have hinj : ∀ x ∈ catalog, ∀ y ∈ catalog, toOut x = toOut y → x = y := by
        decide
      refine List.Nodup.map_on ?_ (selectFrom_nodup (by decide))
      intro x hx y hy hxy
      exact hinj x (selectFrom_subset hx) y (selectFrom_subset hy) hxy
    · rw [List.length_map]
      exact List.length_pos.mpr (selectFrom_ne_nil (by decide))
    · rw [List.length_map]
      exact selectFrom_length_le

/-- Witness for C10 at the single ingredient makaron. -/
theorem C10_response_catalog_invariant_witness :
    (recipes_from_ingredients ["makaron"] true =
      Except.ok [toOut spaghettiAglio]) ∧
    ((∀ o ∈ [toOut spaghettiAglio], ∃ r ∈ catalog, o = toOut r) ∧
      ([toOut spaghettiAglio] : List RecipeOut).Nodup ∧
      1 ≤ ([toOut spaghettiAglio] : List RecipeOut).length ∧
      ([toOut spaghettiAglio] : List RecipeOut).length ≤ 3) :=
  ⟨by decide,
   C10_response_catalog_invariant ["makaron"] true [toOut spaghettiAglio]
     (by decide)⟩

/-- Claim C2: whenever the normalized input is non-empty the matcher
response is non-empty, and when no catalog recipe passes the threshold
filter it is exactly one recipe, a catalog entry whose overlap score is
maximal (possibly zero). -/
theorem C2_fallback_single_top (ings : List String) (b : Bool)
    (h : normalizeIngredients ings ≠ []) :
    ∃ out, recipes_from_ingredients ings b = Except.ok out ∧ out ≠ [] ∧
      ((∀ r ∈ catalog, keeps (normalizeIngredients ings).length
          (scoreOf (normalizeIngredients ings) r) = false) →
        ∃ r ∈ catalog, out = [toOut r] ∧
          ∀ r2 ∈ catalog, scoreOf (normalizeIngredients ings) r2 ≤
            scoreOf (normalizeIngredients ings) r) := by
  have hemp : (normalizeIngredients ings).isEmpty = false := by
    rw [← Bool.not_eq_true, List.isEmpty_iff]
    exact h
  refine ⟨(selectFrom catalog (normalizeIngredients ings)).map toOut,
    ?_, ?_, ?_⟩
  · simp [recipes_from_ingredients, recipes_from_ingredients_cat, hemp]
  · intro hmapnil
    exact selectFrom_ne_nil (by decide) (List.map_eq_nil_iff.mp hmapnil)
  · intro hall
    rcases selectFrom_fallback hall (by decide) with ⟨r, hr, hsel, hmax⟩
    refine ⟨r, hr, ?_, hmax⟩
    rw [hsel]
    rfl

/-- Witness for C2 at an ingredient matching nothing in the catalog: the
threshold filter keeps no recipe, yet one recipe is still returned. -/
theorem C2_fallback_single_top_witness :
    (normalizeIngredients ["xyz123"] ≠ []) ∧
    (∃ out, recipes_from_ingredients ["xyz123"] true = Except.ok out ∧
      out ≠ [] ∧
      ((∀ r ∈ catalog, keeps (normalizeIngredients ["xyz123"]).length
          (scoreOf (normalizeIngredients ["xyz123"]) r) = false) →
        ∃ r ∈ catalog, out = [toOut r] ∧
          ∀ r2 ∈ catalog, scoreOf (normalizeIngredients ["xyz123"]) r2 ≤
            scoreOf (normalizeIngredients ["xyz123"]) r)) :=
  ⟨by decide, C2_fallback_single_top ["xyz123"] true (by decide)⟩

/-- Counterexample to claim C1 as stated.  On the input with a repeated
ingredient the normalized set has exactly one element, so the claim
demands that every recipe with overlap at least 1 is kept; the salad
recipe has overlap 1, yet the code keeps only the single fallback recipe,
because it selects the threshold by the length of the normalized list
with duplicates (2 here), not by the size of the set. -/
theorem C1_counterexample :
    (normalizeIngredients ["sól", "sól"]).dedup = ["sól"] ∧
    scoreOf (normalizeIngredients ["sól", "sól"]) salatkaGrecka = 1 ∧
    recipes_from_ingredients ["sól", "sól"] true =
      Except.ok [toOut spaghettiAglio] ∧
    toOut salatkaGrecka ≠ toOut spaghettiAglio :=
  ⟨by decide, by decide, by decide, by decide⟩

/-- Claim C1 amended: the threshold is keyed by the length of the
normalized ingredient list with duplicates retained (not by the size of
the normalized set): with exactly one normalized entry every catalog
recipe with overlap at least 1 is kept, with more than one entry every
catalog recipe with overlap at least 2 is kept, and the kept recipes are
ordered by overlap count descending. -/
theorem C1_threshold_and_order (ings : List String) (b : Bool)
    (h : normalizeIngredients ings ≠ []) :
    ∃ out, recipes_from_ingredients ings b = Except.ok out ∧
      (∀ r ∈ catalog,
        (((normalizeIngredients ings).length = 1 ∧
            1 ≤ scoreOf (normalizeIngredients ings) r) ∨
         (1 < (normalizeIngredients ings).length ∧
            2 ≤ scoreOf (normalizeIngredients ings) r)) →
        toOut r ∈ out) ∧
      out.Pairwise (fun a c => scoreOut (normalizeIngredients ings) c ≤
        scoreOut (normalizeIngredients ings) a) := by
  have hemp : (normalizeIngredients ings).isEmpty = false := by
    rw [← Bool.not_eq_true, List.isEmpty_iff]
    exact h
  refine ⟨(selectFrom catalog (normalizeIngredients ings)).map toOut,
    ?_, ?_, ?_⟩
  · simp [recipes_from_ingredients, recipes_from_ingredients_cat, hemp]
  · intro r hr hcond
    have hk : keeps (normalizeIngredients ings).length
        (scoreOf (normalizeIngredients ings) r) = true :=
      decide_eq_true hcond
    exact List.mem_map.mpr ⟨r, selectFrom_mem_of_keeps hr hk, rfl⟩
  · rw [List.pairwise_map]
    exact (selectFrom_sorted catalog (normalizeIngredients ings)).imp
      (fun hle => hle)

/-- Witness for C1 amended at the single ingredient makaron: the list
length is 1, the spaghetti recipe has overlap 1 and is kept. -/
theorem C1_threshold_and_order_witness :
    (normalizeIngredients ["makaron"] ≠ []) ∧
    (∃ out, recipes_from_ingredients ["makaron"] true = Except.ok out ∧
      (∀ r ∈ catalog,
        (((normalizeIngredients ["makaron"]).length = 1 ∧
            1 ≤ scoreOf (normalizeIngredients ["makaron"]) r) ∨
         (1 < (normalizeIngredients ["makaron"]).length ∧
            2 ≤ scoreOf (normalizeIngredients ["makaron"]) r)) →
        toOut r ∈ out) ∧
      out.Pairwise (fun a c => scoreOut (normalizeIngredients ["makaron"]) c ≤
        scoreOut (normalizeIngredients ["makaron"]) a)) :=
  ⟨by decide, C1_threshold_and_order ["makaron"] true (by decide)⟩

/-- Relation between two scored entries: same score and same title. -/
def pairRel (p q : Nat × Recipe) : Prop :=
  p.1 = q.1 ∧ p.2.title = q.2.title

/-- Pointwise relation between two catalogs: entries equal in every field
except that the ingredient list may be permuted. -/
def ingPermRel (r r2 : Recipe) : Prop :=
  r.title = r2.title ∧ r.ingredients.Perm r2.ingredients ∧
    r.steps = r2.steps ∧ r.source = r2.source ∧
    r.image_filename = r2.image_filename

theorem pairRel_key {p q : Nat × Recipe} (h : pairRel p q) : p.1 = q.1 :=
  h.1

theorem forall2_insertDesc {x y : Nat × Recipe} (hxy : pairRel x y)
    {l l2 : List (Nat × Recipe)} (h : List.Forall₂ pairRel l l2) :
    List.Forall₂ pairRel (insertDesc x l) (insertDesc y l2) := by
  induction h with
  | nil => exact List.Forall₂.cons hxy List.Forall₂.nil
  | @cons a b as bs hab hrest ih =>
    by_cases hc : a.1 ≤ x.1
    · have hc2 : b.1 ≤ y.1 := by
        rw [← pairRel_key hab, ← pairRel_key hxy]
        exact hc
      simp only [insertDesc, if_pos hc, if_pos hc2]
      exact List.Forall₂.cons hxy (List.Forall₂.cons hab hrest)
    · have hc2 : ¬b.1 ≤ y.1 := by
        rw [← pairRel_key hab, ← pairRel_key hxy]
        exact hc
      simp only [insertDesc, if_neg hc, if_neg hc2]
      exact List.Forall₂.cons hab ih

theorem forall2_sortDesc {l l2 : List (Nat × Recipe)}
    (h : List.Forall₂ pairRel l l2) :
    List.Forall₂ pairRel (sortDesc l) (sortDesc l2) := by
  induction h with
  | nil => exact List.Forall₂.nil
  | @cons a b as bs hab hrest ih =>
    simp only [sortDesc]
    exact forall2_insertDesc hab ih

theorem forall2_filterKeeps (n : Nat) {l l2 : List (Nat × Recipe)}
    (h : List.Forall₂ pairRel l l2) :
    List.Forall₂ pairRel (l.filter (fun p => keeps n p.1))
      (l2.filter (fun p => keeps n p.1)) := by
  induction h with
  | nil => exact List.Forall₂.nil
  | @cons a b as bs hab hrest ih =>
    rw [List.filter_cons, List.filter_cons]
    have hk : keeps n a.1 = keeps n b.1 := by
      rw [pairRel_key hab]
    by_cases hc : keeps n a.1 = true
    · rw [if_pos hc, if_pos (by rw [← hk]; exact hc)]
      exact List.Forall₂.cons hab ih
    · rw [if_neg hc, if_neg (by rw [← hk]; exact hc)]
      exact ih

theorem forall2_titles {l l2 : List (Nat × Recipe)}
    (h : List.Forall₂ pairRel l l2) :
    (l.map Prod.snd).map Recipe.title =
      (l2.map Prod.snd).map Recipe.title := by
  induction h with
  | nil => rfl
  | @cons a b as bs hab hrest ih =>
    simp only [List.map_cons]
    rw [hab.2, ih]

theorem normalizeIngredients_perm {l l2 : List String} (h : l.Perm l2) :
    (normalizeIngredients l).Perm (normalizeIngredients l2) :=
  (h.filter _).map _

theorem scoreOf_congr {u u2 : List String} (hu : u.Perm u2)
    {r r2 : Recipe} (hr : ingPermRel r r2) :
    scoreOf u r = scoreOf u2 r2 := by
  have hL : (lowerAll r.ingredients).Perm (lowerAll r2.ingredients) :=
    hr.2.1.map pyLower
  unfold scoreOf overlapCount
  have h1 : u.dedup.filter (fun i => decide (i ∈ lowerAll r.ingredients)) =
      u.dedup.filter (fun i => decide (i ∈ lowerAll r2.ingredients)) := by
    apply List.filter_congr
    intro i _
    exact decide_eq_decide.mpr hL.mem_iff
  rw [h1]
  exact (hu.dedup.filter _).length_eq

theorem forall2_scored {cat cat2 : List Recipe} {u u2 : List String}
    (hu : u.Perm u2) (hcat : List.Forall₂ ingPermRel cat cat2) :
    List.Forall₂ pairRel (scoredList cat u) (scoredList cat2 u2) := by
  induction hcat with
  | nil => exact List.Forall₂.nil
  | @cons a b as bs hab hrest ih =>
    exact List.Forall₂.cons ⟨scoreOf_congr hu hab, hab.1⟩ ih

theorem selectFrom_titles_congr {cat cat2 : List Recipe} {u u2 : List String}
    (hlen : u.length = u2.length)
    (hF : List.Forall₂ pairRel (scoredList cat u) (scoredList cat2 u2)) :
    (selectFrom cat u).map Recipe.title =
      (selectFrom cat2 u2).map Recipe.title := by
  have hsorted := forall2_sortDesc hF
  have hfil : List.Forall₂ pairRel
      ((sortDesc (scoredList cat u)).filter (fun p => keeps u.length p.1))
      ((sortDesc (scoredList cat2 u2)).filter
        (fun p => keeps u2.length p.1)) := by
    rw [← hlen]
    exact forall2_filterKeeps u.length hsorted
  by_cases hres : ((sortDesc (scoredList cat u)).filter
      (fun p => keeps u.length p.1)).map Prod.snd = []
  · have hfil_nil : (sortDesc (scoredList cat u)).filter
        (fun p => keeps u.length p.1) = [] := List.map_eq_nil_iff.mp hres
    have hfil2_nil : (sortDesc (scoredList cat2 u2)).filter
        (fun p => keeps u2.length p.1) = [] := by
      rw [hfil_nil] at hfil
      exact List.forall₂_nil_left_iff.mp hfil
    have hres2 : ((sortDesc (scoredList cat2 u2)).filter
        (fun p => keeps u2.length p.1)).map Prod.snd = [] := by
      rw [hfil2_nil]
      rfl
    rcases hS : sortDesc (scoredList cat u) with _ | ⟨p, rest⟩
    · rw [hS] at hsorted
      have hS2 : sortDesc (scoredList cat2 u2) = [] :=
        List.forall₂_nil_left_iff.mp hsorted
      rw [selectFrom_eq_nil hS, selectFrom_eq_nil hS2]
    · rw [hS] at hsorted
      rcases List.forall₂_cons_left_iff.mp hsorted with
        ⟨q, rest2, hpq, hrest, hS2⟩
      rw [selectFrom_eq_fallback hres hS, selectFrom_eq_fallback hres2 hS2]
      simp [hpq.2]
  · have hres2 : ((sortDesc (scoredList cat2 u2)).filter
        (fun p => keeps u2.length p.1)).map Prod.snd ≠ [] := by
      intro hnil
      apply hres
      have h2nil := List.map_eq_nil_iff.mp hnil
      rw [h2nil] at hfil
      rw [List.forall₂_nil_right_iff.mp hfil]
      rfl
    rw [selectFrom_eq_results hres, selectFrom_eq_results hres2]
    exact forall2_titles hfil

/-- Claim C9: matching treats ingredient sequences as sets.  Permuting
the user input list, and permuting the ingredient list inside any catalog
recipe, leaves the selection unchanged: the same recipes, identified by
title, are returned in the same order, with agreeing error behaviour. -/
theorem C9_matching_is_setwise (cat cat2 : List Recipe)
    (ings ings2 : List String) (hperm : ings.Perm ings2)
    (hcat : List.Forall₂ ingPermRel cat cat2) :
    (recipes_from_ingredients_cat cat ings).map (List.map RecipeOut.title) =
      (recipes_from_ingredients_cat cat2 ings2).map
        (List.map RecipeOut.title) := by
  have hu := normalizeIngredients_perm hperm
  by_cases hemp : (normalizeIngredients ings).isEmpty = true
  · have hnil : normalizeIngredients ings = [] := List.isEmpty_iff.mp hemp
    have hnil2 : normalizeIngredients ings2 = [] := by
      rw [hnil] at hu
      exact hu.symm.eq_nil
    simp [recipes_from_ingredients_cat, hnil, hnil2]
  · rw [Bool.not_eq_true] at hemp
    have hne : normalizeIngredients ings ≠ [] := by
      intro hnil
      rw [hnil] at hemp
      simp at hemp
    have hne2 : normalizeIngredients ings2 ≠ [] := by
      intro hnil2
      rw [hnil2] at hu
      exact hne hu.eq_nil
    have hemp2 : (normalizeIngredients ings2).isEmpty = false := by
      rw [← Bool.not_eq_true, List.isEmpty_iff]
      exact hne2
    simp only [recipes_from_ingredients_cat, hemp, hemp2, Bool.false_eq_true,
      if_false, Except.map]
    have hcompose : ∀ l : List Recipe,
        (l.map toOut).map RecipeOut.title = l.map Recipe.title := by
      intro l
      rw [List.map_map]
      rfl
    rw [hcompose, hcompose,
      selectFrom_titles_congr hu.length_eq (forall2_scored hu hcat)]

/-- The catalog with the ingredient list of the first seed rotated, used
to witness C9. -/
def catalogPermuted : List Recipe :=
  [{ title := "Spaghetti aglio e olio"
     ingredients := ["czosnek", "oliwa z oliwek", "pietruszka",
                     "papryczka chili", "sól", "makaron"]
     steps := ["Ugotuj makaron al dente.",
               "Na oliwie podsmaż czosnek i chili.",
               "Wymieszaj z makaronem i posiekaną pietruszką, dopraw."]
     source := some "seed" },
   salatkaGrecka, kurczakCurry]

/-- Witness for C9 at a swapped user list and a rotated catalog entry. -/
theorem C9_matching_is_setwise_witness :
    (["sól", "makaron"] : List String).Perm ["makaron", "sól"] ∧
    (recipes_from_ingredients_cat catalog ["sól", "makaron"]).map
        (List.map RecipeOut.title) =
      (recipes_from_ingredients_cat catalogPermuted ["makaron", "sól"]).map
        (List.map RecipeOut.title) :=
  ⟨by decide,
   C9_matching_is_setwise catalog catalogPermuted
     ["sól", "makaron"] ["makaron", "sól"] (by decide)
     (List.Forall₂.cons ⟨rfl, by decide, rfl, rfl, rfl⟩
       (List.Forall₂.cons ⟨rfl, List.Perm.refl _, rfl, rfl, rfl⟩
         (List.Forall₂.cons ⟨rfl, List.Perm.refl _, rfl, rfl, rfl⟩
           List.Forall₂.nil)))⟩
